import Mathlib

/-!
Verification development for the architectural-viewer server
(`src/unnamed/part_000`): an in-memory client/project registry with
file upload, soft delete (relocation to a backup folder) and
name-based lookup.

The JavaScript handlers are embedded shallowly:
- JS objects with string keys are insertion-ordered association lists
  (`List (String × _)`): property update keeps the position, a new
  property is appended at the end, `delete` removes the single entry.
- The filesystem (`uploads/` and `uploads/backup/`) is a pair of lists
  of filenames; `fs.existsSync` is membership, `fs.renameSync` moves a
  name from one list to the other.  `renameSync` can throw; a handler
  that calls it takes a `renameOk : Bool` oracle telling whether the
  rename succeeds (the JS wraps it in try/catch and answers 500 when
  it throws).
- `Date.now()` is a `Nat` parameter (milliseconds); its JS decimal
  string rendering is modelled by `decimalDigits`.
- JS regular expressions over ASCII input: `\s` is modelled by the
  ASCII whitespace characters, `\w` by `[A-Za-z0-9_]`, `toLowerCase`
  and `toUpperCase` by the ASCII `Char.toLower` / `Char.toUpper`.
-/

set_option autoImplicit false

namespace ArchViewer

/-- ASCII model of the JS regex class `\s`. -/
def isJsSpace (c : Char) : Bool :=
  c = ' ' || c = '\t' || c = '\n' || c = '\r' || c = '\x0b' || c = '\x0c'

/-- ASCII model of the JS regex class `\w` (word character). -/
def isWordChar (c : Char) : Bool :=
  c.isAlphanum || c = '_'

/-- ASCII model of JS `str.toLowerCase()`. -/
def jsToLower (s : String) : String :=
  String.mk (s.data.map Char.toLower)

/-- Model of JS `str.endsWith(suffix)`. -/
def jsEndsWith (s suffix : String) : Bool :=
  decide (suffix.data.length ≤ s.data.length) &&
    s.data.drop (s.data.length - suffix.data.length) == suffix.data

/-- `collapseRuns isSep sep prev cs` replaces every maximal run of
characters satisfying `isSep` by the single character `sep`; `prev`
records whether the previous character belonged to such a run.  This is
JS `str.replace(/X+/g, sep)` for a character class `X`. -/
def collapseRuns (isSep : Char → Bool) (sep : Char) : Bool → List Char → List Char
  | _, [] => []
  | prev, c :: cs =>
    if isSep c then
      if prev then collapseRuns isSep sep true cs
      else sep :: collapseRuns isSep sep true cs
    else c :: collapseRuns isSep sep false cs

/-- `name.toLowerCase().replace(/\s+/g, '-')` — the client-id
derivation in the POST /api/admin/client handler. -/
def slugify (name : String) : String :=
  String.mk (collapseRuns isJsSpace '-' false (name.data.map Char.toLower))

/-- Derivation as the spec sentence words it (for comparison with
`slugify`, which embeds the code): lowercase, then every run of
NON-ALPHANUMERIC characters replaced with a single hyphen. -/
def claimedSlug (name : String) : String :=
  String.mk (collapseRuns (fun c => !c.isAlphanum) '-' false (name.data.map Char.toLower))

/-- `file.originalname.replace(/\s+/g, '_')` — whitespace
normalisation of an uploaded file's original name. -/
def underscoreName (orig : String) : List Char :=
  collapseRuns isJsSpace '_' false orig.data

/-- The decimal digit characters, as JS renders a digit. -/
def digitChar (d : Nat) : Char :=
  match d with
  | 0 => '0' | 1 => '1' | 2 => '2' | 3 => '3' | 4 => '4'
  | 5 => '5' | 6 => '6' | 7 => '7' | 8 => '8' | 9 => '9'
  | _ => '*'

/-- Decimal rendering of a natural number, most significant digit
first — the JS `Number`-to-string conversion used when `Date.now()` is
concatenated with a string. -/
def decimalDigits (n : Nat) : List Char :=
  if _h : n < 10 then [digitChar n]
  else decimalDigits (n / 10) ++ [digitChar (n % 10)]
termination_by n
decreasing_by exact Nat.div_lt_self (by omega) (by omega)

/-- Reads a decimal digit string back to the number it denotes. -/
def decVal (l : List Char) : Nat :=
  l.foldl (fun acc c => acc * 10 + (c.toNat - 48)) 0

/-- The longest prefix made of decimal digit characters. -/
def leadingDigits : List Char → List Char
  | [] => []
  | c :: cs => if c.isDigit then c :: leadingDigits cs else []

/-- `Date.now() + '-' + file.originalname.replace(/\s+/g, '_')` — the
stored filename chosen by the multer.diskStorage `filename` callback. -/
def storedFilename (now : Nat) (orig : String) : String :=
  String.mk (decimalDigits now ++ '-' :: underscoreName orig)

/-- The stored names produced by a sequence of accepted uploads, each
upload event given by its `Date.now()` value and its original name. -/
def storedNamesOf (events : List (Nat × String)) : List String :=
  events.map (fun e => storedFilename e.1 e.2)

/-- The multer `fileFilter`: accept when the declared MIME type is
`model/gltf-binary` or the original name ends in `.glb`, otherwise
reject with `Error('Only .glb files are allowed')`. -/
def fileFilter (mimetype originalname : String) : Except String Unit :=
  if mimetype = "model/gltf-binary" || jsEndsWith originalname ".glb" then
    Except.ok ()
  else
    Except.error "Only .glb files are allowed"

/-- `replace(/\b\w/g, l => l.toUpperCase())`: uppercase every word
character that starts a word (its predecessor, tracked by `prev`, is
not a word character). -/

def capitalizeWords : Bool → List Char → List Char
  | _, [] => []
  | prev, c :: cs =>
    (if isWordChar c && !prev then c.toUpper else c) :: capitalizeWords (isWordChar c) cs

/-- `clientId.replace(hyphens, ' ').replace(/\b\w/g, l =>
l.toUpperCase())` (the first replace is the global-hyphen regex,
spelled out here to keep this comment well-formed) — the display name
auto-derived for a client created by the upload handler. -/
def humanize (clientId : String) : String :=
  String.mk (capitalizeWords false (clientId.data.map (fun c => if c = '-' then ' ' else c)))

/-- A project record: `{filename, description, uploaded}`. -/
structure Project where
  filename : String
  description : String
  uploaded : String
deriving Repr, DecidableEq

/-- A client record: `{name, contact, projects}`; `projects` is the
insertion-ordered map from project id to project. -/
structure Client where
  name : String
  contact : String
  projects : List (String × Project)
deriving Repr, DecidableEq

/-- The registry: the insertion-ordered map from client id to client
(the mutable top-level `clients` object). -/
abbrev Registry := List (String × Client)

/-- Property read `obj[k]` on a JS object. -/
def alistLookup {α : Type} : List (String × α) → String → Option α
  | [], _ => none
  | (k, v) :: t, key => if k = key then some v else alistLookup t key

/-- Property write `obj[k] = v` on a JS object: update in place when
the key exists, append at the end when it does not. -/
def alistInsert {α : Type} : List (String × α) → String → α → List (String × α)
  | [], key, v => [(key, v)]
  | (k, w) :: t, key, v =>
    if k = key then (key, v) :: t else (k, w) :: alistInsert t key v

/-- Property removal `delete obj[k]` on a JS object. -/
def alistErase {α : Type} : List (String × α) → String → List (String × α)
  | [], _ => []
  | (k, w) :: t, key => if k = key then t else (k, w) :: alistErase t key

/-- The single project seeded in the registry at process start. -/
def hwProject : Project :=
  { filename := "1758121257346-4650_highway_a1a_revised_7.24.glb",
    description := "A1A Highway Revision 7.24",
    uploaded := "2024-01-15" }

/-- The single client seeded in the registry at process start. -/
def hwClient : Client :=
  { name := "Highway Projects Inc.",
    contact := "john@highwayproj.com",
    projects := [("highway001", hwProject)] }

/-- The initial value of the `clients` object at process start. -/
def initialClients : Registry :=
  [("highway-projects", hwClient)]

/-- Full server state: the registry plus the two filesystem areas
(`uploads/` and `uploads/backup/`), each a list of filenames. -/
structure ServerState where
  clients : Registry
  active : List String
  backup : List String
deriving Repr, DecidableEq

/-- Server state at process start with the seeded project's file
present in the active area. -/
def s0 : ServerState :=
  { clients := initialClients, active := [hwProject.filename], backup := [] }

/-- Server state at process start with the seeded project's file
absent from the active area (e.g. deleted out of band). -/
def sNoFile : ServerState :=
  { clients := initialClients, active := [], backup := [] }

/-- Server state with nothing registered and nothing stored. -/
def emptyState : ServerState :=
  { clients := [], active := [], backup := [] }

/-- A registry already holding a client whose id is `acme-co`. -/
def acmeRegistry : Registry :=
  [("acme-co", { name := "Acme Co", contact := "", projects := [] })]

/-- Row of the GET /api/admin/clients response:
`{id, ...client, projectCount}`. -/
structure ClientSummary where
  id : String
  name : String
  contact : String
  projects : List (String × Project)
  projectCount : Nat
deriving Repr, DecidableEq

/-- GET /api/admin/clients: every client with its id and its project
count. -/
def listClients (r : Registry) : List ClientSummary :=
  r.map (fun p => ⟨p.1, p.2.name, p.2.contact, p.2.projects, p.2.projects.length⟩)

/-- Outcome of POST /api/admin/client. -/
inductive CreateClientResult where
  | missingName
  | duplicate
  | created (clientId : String)
deriving Repr, DecidableEq

/-- POST /api/admin/client: require a name, derive the id with
`slugify`, refuse a duplicate id, otherwise add the client with empty
projects (`contact || ''` turns a missing contact into the empty
string, which the `contact` argument already carries). -/
def createClient (r : Registry) (name contact : String) : Registry × CreateClientResult :=
  if name = "" then (r, CreateClientResult.missingName)
  else
    let clientId := slugify name
    if (alistLookup r clientId).isSome then (r, CreateClientResult.duplicate)
    else (alistInsert r clientId { name := name, contact := contact, projects := [] },
          CreateClientResult.created clientId)

/-- HTTP status of each POST /api/admin/client outcome. -/
def createClientStatus : CreateClientResult → Nat
  | CreateClientResult.missingName => 400
  | CreateClientResult.duplicate => 400
  | CreateClientResult.created _ => 200

/-- Error body of each POST /api/admin/client outcome. -/
def createClientError : CreateClientResult → Option String
  | CreateClientResult.missingName => some "Client name is required"
  | CreateClientResult.duplicate => some "Client already exists"
  | CreateClientResult.created _ => none

/-- `if (!clients[clientId]) clients[clientId] = {name: humanize(...),
contact: '', projects: {}}` — the auto-creation step of the upload
handler. -/
def ensureClient (r : Registry) (clientId : String) : Registry :=
  match alistLookup r clientId with
  | some _ => r
  | none => alistInsert r clientId { name := humanize clientId, contact := "", projects := [] }

/-- `clients[clientId].projects[projectId] = {filename, description,
uploaded}` after `ensureClient` — the linking step of the upload
handler. -/
def linkProject (r : Registry) (clientId projectId filename description today : String) : Registry :=
  let r1 := ensureClient r clientId
  let proj : Project := { filename := filename, description := description, uploaded := today }
  match alistLookup r1 clientId with
  | some c =>
      alistInsert r1 clientId { c with projects := alistInsert c.projects projectId proj }
  | none => r1

/-- The client record the upload handler auto-creates for an unknown
clientId, holding the single project just linked. -/
def autoClient (clientId projectId filename description today : String) : Client :=
  { name := humanize clientId, contact := "",
    projects := [(projectId,
      { filename := filename, description := description, uploaded := today })] }

/-- `c` with the project at `projectId` removed. -/
def eraseProject (c : Client) (projectId : String) : Client :=
  { c with projects := alistErase c.projects projectId }

/-- Outcome of POST /api/admin/upload. -/
inductive UploadOutcome where
  | rejected (msg : String)
  | noFile
  | missingIds
  | linked (filename : String)
deriving Repr, DecidableEq

/-- POST /api/admin/upload.  The multer middleware runs first: a
present file is checked by `fileFilter`; a rejected file never reaches
the handler (and is not stored); an accepted file is written to the
active area under `storedFilename` BEFORE the handler body runs.  The
handler then requires `clientId` and `projectId` (the empty string
models a missing field), auto-creates the client if needed and links
the project, defaulting the description to `Project <projectId>`. -/
def uploadRequest (s : ServerState) (file : Option (String × String)) (now : Nat)
    (clientId projectId description today : String) : ServerState × UploadOutcome :=
  match file with
  | none => (s, UploadOutcome.noFile)
  | some (mimetype, orig) =>
    match fileFilter mimetype orig with
    | Except.error msg => (s, UploadOutcome.rejected msg)
    | Except.ok _ =>
      let stored := storedFilename now orig
      let s1 : ServerState := { s with active := s.active ++ [stored] }
      if clientId = "" || projectId = "" then (s1, UploadOutcome.missingIds)
      else
        let desc := if description = "" then "Project " ++ projectId else description
        ({ s1 with clients := linkProject s1.clients clientId projectId stored desc today },
         UploadOutcome.linked stored)

/-- HTTP status of each upload outcome (a `fileFilter` error falls
through to the framework default error handler, status 500). -/
def uploadStatus : UploadOutcome → Nat
  | UploadOutcome.rejected _ => 500
  | UploadOutcome.noFile => 400
  | UploadOutcome.missingIds => 400
  | UploadOutcome.linked _ => 200

/-- Error body of each upload outcome. -/
def uploadError : UploadOutcome → Option String
  | UploadOutcome.rejected msg => some msg
  | UploadOutcome.noFile => some "No file uploaded or invalid file type"
  | UploadOutcome.missingIds => some "Client ID and Project ID are required"
  | UploadOutcome.linked _ => none

/-- Outcome of DELETE /api/admin/client/:clientId/project/:projectId. -/
inductive DeleteProjectResult where
  | clientNotFound
  | projectNotFound
  | moveError
  | ok (remainingProjects : Nat)
deriving Repr, DecidableEq

/-- DELETE /api/admin/client/:clientId/project/:projectId: look up the
client then the project; if the file exists in the active area rename
it into the backup area (`renameOk` tells whether the rename throws —
a throw is caught and answered with 500 before the registry entry is
touched); a missing file is only logged; then remove the project entry
and answer with the remaining project count. -/
def deleteProject (s : ServerState) (renameOk : Bool) (clientId projectId : String) :
    ServerState × DeleteProjectResult :=
  match alistLookup s.clients clientId with
  | none => (s, DeleteProjectResult.clientNotFound)
  | some client =>
    match alistLookup client.projects projectId with
    | none => (s, DeleteProjectResult.projectNotFound)
    | some proj =>
      if s.active.contains proj.filename then
        if renameOk then
          let client2 := { client with projects := alistErase client.projects projectId }
          ({ clients := alistInsert s.clients clientId client2,
             active := s.active.erase proj.filename,
             backup := s.backup ++ [proj.filename] },
           DeleteProjectResult.ok client2.projects.length)
        else (s, DeleteProjectResult.moveError)
      else
        let client2 := { client with projects := alistErase client.projects projectId }
        ({ s with clients := alistInsert s.clients clientId client2 },
         DeleteProjectResult.ok client2.projects.length)

/-- HTTP status of each project-delete outcome. -/
def deleteProjectStatus : DeleteProjectResult → Nat
  | DeleteProjectResult.clientNotFound => 404
  | DeleteProjectResult.projectNotFound => 404
  | DeleteProjectResult.moveError => 500
  | DeleteProjectResult.ok _ => 200

/-- Error body of each project-delete outcome. -/
def deleteProjectError : DeleteProjectResult → Option String
  | DeleteProjectResult.clientNotFound => some "Client not found"
  | DeleteProjectResult.projectNotFound => some "Project not found"
  | DeleteProjectResult.moveError => some "Failed to move project to backup"
  | DeleteProjectResult.ok _ => none

/-- Outcome of DELETE /api/admin/client/:clientId. -/
inductive DeleteClientResult where
  | notFound
  | ok
deriving Repr, DecidableEq

/-- DELETE /api/admin/client/:clientId: cascade delete.  Every owned
project file present in the active area is renamed into the backup
area (renames modelled as succeeding — no claim concerns their
failure), then the client entry is removed. -/
def deleteClient (s : ServerState) (clientId : String) : ServerState × DeleteClientResult :=
  match alistLookup s.clients clientId with
  | none => (s, DeleteClientResult.notFound)
  | some client =>
    let moved := (client.projects.filter (fun pr => s.active.contains pr.2.filename)).map
      (fun pr => pr.2.filename)
    ({ clients := alistErase s.clients clientId,
       active := client.projects.foldl (fun acc pr => acc.erase pr.2.filename) s.active,
       backup := s.backup ++ moved },
     DeleteClientResult.ok)

/-- HTTP status of each client-delete outcome (note: 400, not 404). -/
def deleteClientStatus : DeleteClientResult → Nat
  | DeleteClientResult.notFound => 400
  | DeleteClientResult.ok => 200

/-- Error body of each client-delete outcome. -/
def deleteClientError : DeleteClientResult → Option String
  | DeleteClientResult.notFound => some "Client not found"
  | DeleteClientResult.ok => none

/-- `Object.values(clients).find(c => c.name.toLowerCase() ===
clientName.toLowerCase())` — case-insensitive client search by display
name, first match in insertion order. -/
def findClientByName (r : Registry) (clientName : String) : Option Client :=
  (r.find? (fun p => jsToLower p.2.name == jsToLower clientName)).map (fun p => p.2)

/-- Outcome of GET /api/client/:clientName/project/:number. -/
inductive ResolveResult where
  | clientNotFound (msg : String)
  | projectNotFound (msg : String)
  | fileMissing (msg : String)
  | ok (modelPath clientName projectName description : String)
deriving Repr, DecidableEq

/-- GET /api/client/:clientName/project/:number: find the client by
name (case-insensitive), then the project, then check that the stored
file still exists in the active area before answering with the model
path. -/
def resolve (s : ServerState) (clientName projectNumber : String) : ResolveResult :=
  match findClientByName s.clients clientName with
  | none =>
      ResolveResult.clientNotFound ("Client \"" ++ clientName ++ "\" not found")
  | some client =>
    match alistLookup client.projects projectNumber with
    | some project =>
        if s.active.contains project.filename then
          ResolveResult.ok ("/uploads/" ++ project.filename) client.name projectNumber
            project.description
        else ResolveResult.fileMissing "Model file not found"
    | none =>
        ResolveResult.projectNotFound
          ("Project \"" ++ projectNumber ++ "\" not found for " ++ client.name)

/-- HTTP status of each resolve outcome. -/
def resolveStatus : ResolveResult → Nat
  | ResolveResult.clientNotFound _ => 404
  | ResolveResult.projectNotFound _ => 404
  | ResolveResult.fileMissing _ => 404
  | ResolveResult.ok _ _ _ _ => 200

/-! ## Association-list lemmas -/

theorem alistLookup_insert_self {α : Type} (l : List (String × α)) (k : String) (v : α) :
    alistLookup (alistInsert l k v) k = some v := by
  induction l with
  | nil => simp [alistInsert, alistLookup]
  | cons hd tl ih =>
    obtain ⟨k0, v0⟩ := hd
    by_cases hk : k0 = k
    · simp [alistInsert, hk, alistLookup]
    · simp [alistInsert, hk, alistLookup, ih]

theorem alistLookup_insert_ne {α : Type} (l : List (String × α)) (k key : String) (v : α)
    (h : key ≠ k) : alistLookup (alistInsert l k v) key = alistLookup l key := by
  have hk' : ¬ k = key := fun hh => h hh.symm
  induction l with
  | nil => simp [alistInsert, alistLookup, hk']
  | cons hd tl ih =>
    obtain ⟨k0, v0⟩ := hd
    by_cases h0 : k0 = k
    · simp [alistInsert, h0, alistLookup, hk']
    · simp only [alistInsert, if_neg h0, alistLookup]
      by_cases h1 : k0 = key
      · simp [h1]
      · simp [h1, ih]

theorem alistLookup_erase_ne {α : Type} (l : List (String × α)) (k key : String)
    (h : key ≠ k) : alistLookup (alistErase l k) key = alistLookup l key := by
  have hk' : ¬ k = key := fun hh => h hh.symm
  induction l with
  | nil => simp [alistErase, alistLookup]
  | cons hd tl ih =>
    obtain ⟨k0, v0⟩ := hd
    by_cases h0 : k0 = k
    · simp [alistErase, h0, alistLookup, hk']
    · simp only [alistErase, if_neg h0, alistLookup]
      by_cases h1 : k0 = key
      · simp [h1]
      · simp [h1, ih]

theorem length_alistErase {α : Type} (l : List (String × α)) (k : String) (v : α)
    (h : alistLookup l k = some v) : (alistErase l k).length + 1 = l.length := by
  induction l with
  | nil => simp [alistLookup] at h
  | cons hd tl ih =>
    obtain ⟨k0, v0⟩ := hd
    by_cases hk : k0 = k
    · simp [alistErase, hk]
    · simp only [alistLookup, if_neg hk] at h
      simp [alistErase, hk, ih h]

theorem length_alistInsert_absent {α : Type} (l : List (String × α)) (k : String) (v : α)
    (h : alistLookup l k = none) : (alistInsert l k v).length = l.length + 1 := by
  induction l with
  | nil => simp [alistInsert]
  | cons hd tl ih =>
    obtain ⟨k0, v0⟩ := hd
    by_cases hk : k0 = k
    · simp [alistLookup, hk] at h
    · simp only [alistLookup, if_neg hk] at h
      simp [alistInsert, hk, ih h]

theorem length_alistInsert_present {α : Type} (l : List (String × α)) (k : String) (v w : α)
    (h : alistLookup l k = some w) : (alistInsert l k v).length = l.length := by
  induction l with
  | nil => simp [alistLookup] at h
  | cons hd tl ih =>
    obtain ⟨k0, v0⟩ := hd
    by_cases hk : k0 = k
    · simp [alistInsert, hk]
    · simp only [alistLookup, if_neg hk] at h
      simp [alistInsert, hk, ih h]

/-! ## Decimal-rendering lemmas -/

theorem digitChar_toNat (d : Nat) (h : d < 10) : (digitChar d).toNat = 48 + d := by
  interval_cases d <;> rfl

theorem digitChar_isDigit (d : Nat) (h : d < 10) : (digitChar d).isDigit = true := by
  interval_cases d <;> rfl

theorem decimalDigits_all_digits (n : Nat) : ∀ c ∈ decimalDigits n, c.isDigit = true := by
  induction n using Nat.strong_induction_on with
  | _ n ih =>
    rw [decimalDigits]
    by_cases h : n < 10
    · rw [dif_pos h]
      intro c hc
      rw [List.mem_singleton] at hc
      subst hc
      exact digitChar_isDigit n h
    · rw [dif_neg h]
      intro c hc
      rcases List.mem_append.mp hc with hc | hc
      · exact ih (n / 10) (Nat.div_lt_self (by omega) (by omega)) c hc
      · rw [List.mem_singleton] at hc
        subst hc
        exact digitChar_isDigit _ (Nat.mod_lt _ (by omega))

theorem decVal_decimalDigits (n : Nat) : decVal (decimalDigits n) = n := by
  induction n using Nat.strong_induction_on with
  | _ n ih =>
    rw [decimalDigits]
    by_cases h : n < 10
    · rw [dif_pos h]
      simp only [decVal, List.foldl_cons, List.foldl_nil, Nat.zero_mul, Nat.zero_add]
      rw [digitChar_toNat n h]
      omega
    · rw [dif_neg h]
      have ihd := ih (n / 10) (Nat.div_lt_self (by omega) (by omega))
      simp only [decVal, List.foldl_append, List.foldl_cons, List.foldl_nil] at ihd ⊢
      rw [ihd, digitChar_toNat _ (Nat.mod_lt _ (by omega))]
      omega

theorem leadingDigits_append (l r : List Char) (hl : ∀ c ∈ l, c.isDigit = true) :
    leadingDigits (l ++ '-' :: r) = l := by
  induction l with
  | nil =>
    show leadingDigits ('-' :: r) = []
    rw [leadingDigits, if_neg (by decide)]
  | cons c cs ih =>
    have hc : c.isDigit = true := hl c (List.mem_cons_self c cs)
    have ihr := ih (fun d hd => hl d (List.mem_cons_of_mem c hd))
    show leadingDigits (c :: (cs ++ '-' :: r)) = c :: cs
    rw [leadingDigits, if_pos hc, ihr]

theorem alistInsert_insert {α : Type} (l : List (String × α)) (k : String) (v w : α) :
    alistInsert (alistInsert l k v) k w = alistInsert l k w := by
  induction l with
  | nil => simp [alistInsert]
  | cons hd tl ih =>
    obtain ⟨k0, v0⟩ := hd
    by_cases h0 : k0 = k
    · simp [alistInsert, h0]
    · simp [alistInsert, h0, ih]

theorem linkProject_absent (r : Registry) (cid pid f d t : String)
    (h : alistLookup r cid = none) :
    linkProject r cid pid f d t = alistInsert r cid (autoClient cid pid f d t) := by
  simp only [linkProject, ensureClient, h, alistLookup_insert_self, alistInsert_insert]
  rfl

theorem linkProject_lookup_other (r : Registry) (cid pid f d t other : String)
    (h : other ≠ cid) :
    alistLookup (linkProject r cid pid f d t) other = alistLookup r other := by
  unfold linkProject ensureClient
  cases hl : alistLookup r cid with
  | some c =>
    simp only [hl]
    rw [alistLookup_insert_ne _ _ _ _ h]
  | none =>
    simp only [hl]
    rw [alistLookup_insert_self]
    simp only []
    rw [alistLookup_insert_ne _ _ _ _ h, alistLookup_insert_ne _ _ _ _ h]

theorem uploadRequest_lookup_other (s : ServerState) (file : Option (String × String))
    (now : Nat) (cid pid d t other : String) (h : other ≠ cid) :
    alistLookup (uploadRequest s file now cid pid d t).1.clients other =
      alistLookup s.clients other := by
  unfold uploadRequest
  cases file with
  | none => rfl
  | some mo =>
    obtain ⟨m, o⟩ := mo
    cases hf : fileFilter m o with
    | error msg => simp only [hf]
    | ok u =>
      cases u
      simp only [hf]
      by_cases hid : (decide (cid = "") || decide (pid = "")) = true
      · rw [if_pos hid]
      · rw [if_neg hid]
        exact linkProject_lookup_other _ _ _ _ _ _ _ h

theorem storedFilename_now_inj (t1 t2 : Nat) (n1 n2 : String)
    (h : storedFilename t1 n1 = storedFilename t2 n2) : t1 = t2 := by
  have hd : decimalDigits t1 ++ '-' :: underscoreName n1
      = decimalDigits t2 ++ '-' :: underscoreName n2 := by
    have h2 := congrArg String.data h
    simpa [storedFilename] using h2
  have h1 := leadingDigits_append (decimalDigits t1) (underscoreName n1)
    (decimalDigits_all_digits t1)
  have h2 := leadingDigits_append (decimalDigits t2) (underscoreName n2)
    (decimalDigits_all_digits t2)
  have hdd : decimalDigits t1 = decimalDigits t2 := by
    rw [← h1, ← h2, hd]
  have hv := congrArg decVal hdd
  rwa [decVal_decimalDigits, decVal_decimalDigits] at hv

/-! ## Claim theorems -/

/-- C1 (counterexample): the claim says createClient derives the id by
replacing every run of NON-ALPHANUMERIC characters with a hyphen, and
fails with DuplicateClient exactly when that derived id exists.  For
the name `Acme & Co` the claimed derivation is `acme-co`; with a
client of id `acme-co` already registered, the code nevertheless
creates a NEW client, under the id `acme-&-co` (only whitespace runs
are replaced), so the claimed biconditional fails. -/
theorem c1_counterexample :
    claimedSlug "Acme & Co" = "acme-co"
    ∧ (alistLookup acmeRegistry "acme-co").isSome = true
    ∧ (createClient acmeRegistry "Acme & Co" "").2 = CreateClientResult.created "acme-&-co"
    ∧ CreateClientResult.created "acme-&-co" ≠ CreateClientResult.duplicate := by
  exact ⟨by decide, by decide, by decide, by decide⟩

/-- C1 (amended): for every non-empty client name, createClient
derives the client id by lowercasing the name and replacing every run
of WHITESPACE characters with a single hyphen, and fails with
DuplicateClient (error `Client already exists`, registry unchanged)
exactly when a client with that derived id already exists; otherwise
it registers the new client under the derived id. -/
theorem c1_createClient_spec (r : Registry) (name contact : String) (h : name ≠ "") :
    ((createClient r name contact).2 = CreateClientResult.duplicate ↔
      (alistLookup r (slugify name)).isSome = true)
    ∧ ((alistLookup r (slugify name)).isSome = true →
        createClient r name contact = (r, CreateClientResult.duplicate))
    ∧ ((alistLookup r (slugify name)).isSome = false →
        createClient r name contact =
          (alistInsert r (slugify name) { name := name, contact := contact, projects := [] },
           CreateClientResult.created (slugify name)))
    ∧ createClientError CreateClientResult.duplicate = some "Client already exists"
    ∧ createClientStatus CreateClientResult.duplicate = 400 := by
  unfold createClient
  rw [if_neg h]
  by_cases hs : (alistLookup r (slugify name)).isSome = true
  · simp [hs, createClientError, createClientStatus]
  · simp [hs, createClientError, createClientStatus]

/-- C1 (witness): `Highway Projects` slugifies to the pre-registered
id `highway-projects`, so creating it is refused as a duplicate. -/
theorem c1_witness :
    createClient initialClients "Highway Projects" "" =
      (initialClients, CreateClientResult.duplicate) := by
  exact (c1_createClient_spec initialClients "Highway Projects" "" (by decide)).2.1 (by decide)

/-- C3 (counterexample): two distinct accepted uploads (list positions
0 and 1) that share the original name and the same `Date.now()`
millisecond receive the SAME stored filename, so the stored names of a
process lifetime are not always pairwise distinct. -/
theorem c3_counterexample :
    storedNamesOf [(1758121257346, "model one.glb"), (1758121257346, "model one.glb")] =
      [storedFilename 1758121257346 "model one.glb",
       storedFilename 1758121257346 "model one.glb"]
    ∧ ¬ (storedNamesOf [(1758121257346, "model one.glb"),
          (1758121257346, "model one.glb")]).Nodup := by
  constructor
  · rfl
  · intro hnd
    have hmem : storedFilename 1758121257346 "model one.glb" ∈
        [storedFilename 1758121257346 "model one.glb"] := List.mem_singleton.mpr rfl
    exact (List.nodup_cons.mp hnd).1 hmem

/-- C3 (amended): the stored name is the whitespace-collapsed (runs of
whitespace to a single underscore) original name prefixed with the
`Date.now()` millisecond value and a hyphen; two accepted uploads
whose timestamps differ always receive distinct stored names (but
same-millisecond uploads with the same collapsed name collide, see the
counterexample). -/
theorem c3_storedFilename_spec (t1 t2 : Nat) (n1 n2 : String) (h : t1 ≠ t2) :
    (storedFilename t1 n1).data = decimalDigits t1 ++ '-' :: underscoreName n1
    ∧ storedFilename t1 n1 ≠ storedFilename t2 n2 := by
  refine ⟨rfl, ?_⟩
  intro hh
  exact h (storedFilename_now_inj t1 t2 n1 n2 hh)

/-- C3 (witness): uploads one millisecond apart get distinct names. -/
theorem c3_witness :
    storedFilename 1758121257346 "model one.glb" ≠
      storedFilename 1758121257347 "model one.glb" := by
  exact (c3_storedFilename_spec 1758121257346 1758121257347
    "model one.glb" "model one.glb" (by decide)).2

/-- C4: the upload validator accepts a file exactly when its declared
MIME type is `model/gltf-binary` (the binary glTF type) or its
original name ends in `.glb`; any other file is rejected with the
message `Only .glb files are allowed`, and a rejected file never
reaches storage (the server state is unchanged by its request). -/
theorem c4_fileFilter_spec (mimetype originalname : String) :
    (fileFilter mimetype originalname = Except.ok () ↔
      (mimetype = "model/gltf-binary" ∨ jsEndsWith originalname ".glb" = true))
    ∧ (fileFilter mimetype originalname ≠ Except.ok () →
        fileFilter mimetype originalname = Except.error "Only .glb files are allowed")
    ∧ (∀ (s : ServerState) (now : Nat) (cid pid d t msg : String),
        fileFilter mimetype originalname = Except.error msg →
        uploadRequest s (some (mimetype, originalname)) now cid pid d t =
          (s, UploadOutcome.rejected msg)) := by
  refine ⟨?_, ?_, ?_⟩
  · unfold fileFilter
    by_cases h1 : mimetype = "model/gltf-binary"
    · simp [h1]
    · by_cases h2 : jsEndsWith originalname ".glb" = true
      · simp [h1, h2]
      · simp [h1, h2]
  · unfold fileFilter
    by_cases h1 : mimetype = "model/gltf-binary"
    · simp [h1]
    · by_cases h2 : jsEndsWith originalname ".glb" = true
      · simp [h1, h2]
      · simp [h1, h2]
  · intro s now cid pid d t msg hmsg
    unfold uploadRequest
    simp only [hmsg]

/-- C4 (witness): a `text/plain` upload named `model.txt` is rejected
with the fixed message and leaves the server state unchanged. -/
theorem c4_witness :
    uploadRequest emptyState (some ("text/plain", "model.txt")) 5 "c" "p" "" "d" =
      (emptyState, UploadOutcome.rejected "Only .glb files are allowed") := by
  exact (c4_fileFilter_spec "text/plain" "model.txt").2.2 emptyState 5 "c" "p" "" "d"
    "Only .glb files are allowed" rfl

/-- C8: when the clientId is absent, DELETE client answers 400 with
`Client not found` while DELETE project answers 404 with the same
message — two distinct status classes for the two not-found delete
paths — and neither touches the state. -/
theorem c8_notfound_status_mismatch (s : ServerState) (cid pid : String) (renameOk : Bool)
    (h : alistLookup s.clients cid = none) :
    deleteClient s cid = (s, DeleteClientResult.notFound)
    ∧ deleteClientStatus (deleteClient s cid).2 = 400
    ∧ deleteClientError (deleteClient s cid).2 = some "Client not found"
    ∧ deleteProject s renameOk cid pid = (s, DeleteProjectResult.clientNotFound)
    ∧ deleteProjectStatus (deleteProject s renameOk cid pid).2 = 404
    ∧ deleteProjectError (deleteProject s renameOk cid pid).2 = some "Client not found"
    ∧ deleteClientStatus (deleteClient s cid).2 ≠
        deleteProjectStatus (deleteProject s renameOk cid pid).2 := by
  have h1 : deleteClient s cid = (s, DeleteClientResult.notFound) := by
    unfold deleteClient
    simp only [h]
  have h2 : deleteProject s renameOk cid pid = (s, DeleteProjectResult.clientNotFound) := by
    unfold deleteProject
    simp only [h]
  rw [h1, h2]
  refine ⟨rfl, rfl, rfl, rfl, rfl, rfl, ?_⟩
  show deleteClientStatus DeleteClientResult.notFound ≠
    deleteProjectStatus DeleteProjectResult.clientNotFound
  decide

/-- C8 (witness): the two not-found delete paths at a concrete absent
id, statuses 400 versus 404. -/
theorem c8_witness :
    deleteClient s0 "ghost" = (s0, DeleteClientResult.notFound)
    ∧ deleteProject s0 true "ghost" "p1" = (s0, DeleteProjectResult.clientNotFound) := by
  have h := c8_notfound_status_mismatch s0 "ghost" "p1" true (by decide)
  exact ⟨h.1, h.2.2.2.1⟩

/-- C10: the registry is seeded: at process start it holds exactly one
client, `highway-projects` (`Highway Projects Inc.`), owning exactly
the project `highway001`; the first listClients call reports it with
projectCount 1 and findClientByName succeeds on the lowercased display
name before any createClient or linkProject call. -/
theorem c10_initial_state :
    initialClients.length = 1
    ∧ alistLookup initialClients "highway-projects" = some hwClient
    ∧ hwClient.name = "Highway Projects Inc."
    ∧ hwClient.projects = [("highway001", hwProject)]
    ∧ listClients initialClients =
        [{ id := "highway-projects", name := "Highway Projects Inc.",
           contact := "john@highwayproj.com",
           projects := [("highway001", hwProject)], projectCount := 1 }]
    ∧ findClientByName initialClients "highway projects inc." = some hwClient := by
  exact ⟨by decide, by decide, by decide, by decide, by decide, by decide⟩

/-- C2 (counterexample): with the project's file present in the active
area and the rename failing, the handler answers `moveError` (500) and
the project's registry entry is NOT removed — refuting the claim that
the entry is removed even when the move itself fails. -/
theorem c2_counterexample :
    s0.active.contains hwProject.filename = true
    ∧ deleteProject s0 false "highway-projects" "highway001" =
        (s0, DeleteProjectResult.moveError)
    ∧ alistLookup (deleteProject s0 false "highway-projects" "highway001").1.clients
        "highway-projects" = some hwClient
    ∧ alistLookup hwClient.projects "highway001" = some hwProject := by
  exact ⟨by decide, by decide, by decide, by decide⟩

/-- C2 (amended): for a deleteProject call whose client and project
keys are present, the registry entry is removed when the file is
ABSENT from the active area (a missing file is non-fatal); but when
the file is present and the move itself fails, the handler answers
`moveError` and the registry entry is NOT removed (state unchanged). -/
theorem c2_relocation_policy (s : ServerState) (renameOk : Bool) (clientId projectId : String)
    (c : Client) (p : Project)
    (hc : alistLookup s.clients clientId = some c)
    (hp : alistLookup c.projects projectId = some p) :
    (s.active.contains p.filename = false →
      deleteProject s renameOk clientId projectId =
        ({ s with clients := alistInsert s.clients clientId (eraseProject c projectId) },
         DeleteProjectResult.ok (alistErase c.projects projectId).length))
    ∧ (s.active.contains p.filename = true → renameOk = false →
      deleteProject s renameOk clientId projectId = (s, DeleteProjectResult.moveError)
      ∧ alistLookup (deleteProject s renameOk clientId projectId).1.clients clientId =
          some c) := by
  constructor
  · intro habs
    have habs' : ¬ p.filename ∈ s.active := by simpa using habs
    unfold deleteProject
    simp only [hc, hp]
    simp [habs', eraseProject]
  · intro hpres hfail
    have hpres' : p.filename ∈ s.active := by simpa using hpres
    have hmain : deleteProject s renameOk clientId projectId =
        (s, DeleteProjectResult.moveError) := by
      unfold deleteProject
      simp only [hc, hp]
      simp [hpres', hfail]
    refine ⟨hmain, ?_⟩
    rw [hmain]
    exact hc

/-- C2 (witness): with the file absent, the logical deletion still
goes through. -/
theorem c2_witness :
    deleteProject sNoFile true "highway-projects" "highway001" =
      ({ sNoFile with clients :=
           alistInsert sNoFile.clients "highway-projects" (eraseProject hwClient "highway001") },
       DeleteProjectResult.ok (alistErase hwClient.projects "highway001").length) := by
  exact (c2_relocation_policy sNoFile true "highway-projects" "highway001" hwClient hwProject
    (by decide) (by decide)).1 (by decide)

/-- C5: a linkProject (upload) call with an accepted file and a
clientId absent from the registry auto-creates exactly one client —
display name the humanized id, empty contact, owning exactly the
linked project — leaves every other client untouched, and a subsequent
upload call with a different clientId leaves the first client's entry
unchanged. -/
theorem c5_linkProject_autocreate (s : ServerState) (now : Nat)
    (mimetype orig clientId projectId d t : String)
    (hv : fileFilter mimetype orig = Except.ok ())
    (habs : alistLookup s.clients clientId = none)
    (hcid : clientId ≠ "") (hpid : projectId ≠ "") :
    alistLookup (uploadRequest s (some (mimetype, orig)) now clientId projectId d t).1.clients
        clientId =
      some (autoClient clientId projectId (storedFilename now orig)
        (if d = "" then "Project " ++ projectId else d) t)
    ∧ (uploadRequest s (some (mimetype, orig)) now clientId projectId d t).1.clients.length =
        s.clients.length + 1
    ∧ (∀ other, other ≠ clientId →
        alistLookup (uploadRequest s (some (mimetype, orig)) now clientId projectId d t).1.clients
            other =
          alistLookup s.clients other)
    ∧ (∀ (file2 : Option (String × String)) (now2 : Nat) (cid2 pid2 d2 t2 : String),
        cid2 ≠ clientId →
        alistLookup
            (uploadRequest (uploadRequest s (some (mimetype, orig)) now clientId projectId d t).1
              file2 now2 cid2 pid2 d2 t2).1.clients clientId =
          alistLookup
            (uploadRequest s (some (mimetype, orig)) now clientId projectId d t).1.clients
            clientId) := by
  have hcond : (decide (clientId = "") || decide (projectId = "")) = false := by
    simp [hcid, hpid]
  have hclients :
      (uploadRequest s (some (mimetype, orig)) now clientId projectId d t).1.clients =
        alistInsert s.clients clientId
          (autoClient clientId projectId (storedFilename now orig)
            (if d = "" then "Project " ++ projectId else d) t) := by
    unfold uploadRequest
    simp only [hv, hcond, Bool.false_eq_true, if_false]
    exact linkProject_absent s.clients clientId projectId _ _ t habs
  refine ⟨?_, ?_, ?_, ?_⟩
  · rw [hclients]
    exact alistLookup_insert_self _ _ _
  · rw [hclients]
    exact length_alistInsert_absent _ _ _ habs
  · intro other ho
    rw [hclients]
    exact alistLookup_insert_ne _ _ _ _ ho
  · intro file2 now2 cid2 pid2 d2 t2 hne
    exact uploadRequest_lookup_other _ file2 now2 cid2 pid2 d2 t2 clientId (Ne.symm hne)

/-- C5 (witness): uploading to the unknown id `acme-co` creates the
client `Acme Co` with empty contact and the single linked project;
a second upload to `beta-inc` leaves it unchanged. -/
theorem c5_witness :
    alistLookup
        (uploadRequest emptyState (some ("model/gltf-binary", "a b.glb")) 5
          "acme-co" "p1" "" "2024-02-02").1.clients "acme-co" =
      some (autoClient "acme-co" "p1" (storedFilename 5 "a b.glb")
        "Project p1" "2024-02-02") := by
  exact (c5_linkProject_autocreate emptyState 5 "model/gltf-binary" "a b.glb"
    "acme-co" "p1" "" "2024-02-02" rfl (by decide) (by decide) (by decide)).1

/-- C6: a successful deleteProject removes exactly the named project:
the result is `ok` carrying the remaining project count, the owning
client's project count decreases by exactly one, every other client's
entry is untouched, and every other project of the owning client is
untouched. -/
theorem c6_deleteProject_frame (s : ServerState) (renameOk : Bool) (clientId projectId : String)
    (c : Client) (p : Project)
    (hc : alistLookup s.clients clientId = some c)
    (hp : alistLookup c.projects projectId = some p)
    (hok : s.active.contains p.filename = false ∨ renameOk = true) :
    (deleteProject s renameOk clientId projectId).2 =
      DeleteProjectResult.ok (alistErase c.projects projectId).length
    ∧ alistLookup (deleteProject s renameOk clientId projectId).1.clients clientId =
        some (eraseProject c projectId)
    ∧ (alistErase c.projects projectId).length + 1 = c.projects.length
    ∧ (∀ other, other ≠ clientId →
        alistLookup (deleteProject s renameOk clientId projectId).1.clients other =
          alistLookup s.clients other)
    ∧ (∀ pid2, pid2 ≠ projectId →
        alistLookup (alistErase c.projects projectId) pid2 =
          alistLookup c.projects pid2) := by
  have hred : (deleteProject s renameOk clientId projectId).1.clients =
        alistInsert s.clients clientId (eraseProject c projectId)
      ∧ (deleteProject s renameOk clientId projectId).2 =
        DeleteProjectResult.ok (alistErase c.projects projectId).length := by
    unfold deleteProject
    simp only [hc, hp]
    rcases hok with h | h
    · have h' : ¬ p.filename ∈ s.active := by simpa using h
      simp [h', eraseProject]
    · by_cases hcont : p.filename ∈ s.active
      · simp [hcont, h, eraseProject]
      · simp [hcont, eraseProject]
  refine ⟨hred.2, ?_, ?_, ?_, ?_⟩
  · rw [hred.1]
    exact alistLookup_insert_self _ _ _
  · exact length_alistErase c.projects projectId p hp
  · intro other ho
    rw [hred.1]
    exact alistLookup_insert_ne _ _ _ _ ho
  · intro pid2 hp2
    exact alistLookup_erase_ne _ _ _ hp2

/-- C6 (witness): deleting the seeded project leaves its client with
zero projects and reports `ok 0`. -/
theorem c6_witness :
    (deleteProject s0 true "highway-projects" "highway001").2 = DeleteProjectResult.ok 0
    ∧ alistLookup (deleteProject s0 true "highway-projects" "highway001").1.clients
        "highway-projects" = some { hwClient with projects := [] } := by
  have h := c6_deleteProject_frame s0 true "highway-projects" "highway001" hwClient hwProject
    (by decide) (by decide) (Or.inr rfl)
  exact ⟨h.1, h.2.1⟩

/-- C7: resolve matches the client name case-insensitively (any name
with the same lowercasing finds the same client), returns a not-found
result — never an exception — in every failure case: client-not-found
when no display name matches, project-not-found when the matched
client lacks the project id, and file-missing when the project's file
is absent from the active area, checked against the file store at
resolution time. -/
theorem c7_resolve_spec (s : ServerState) (clientName projectNumber : String) :
    (∀ other : String, jsToLower other = jsToLower clientName →
      findClientByName s.clients other = findClientByName s.clients clientName)
    ∧ ((∀ pr ∈ s.clients, jsToLower pr.2.name ≠ jsToLower clientName) →
      findClientByName s.clients clientName = none)
    ∧ (findClientByName s.clients clientName = none →
      resolve s clientName projectNumber =
        ResolveResult.clientNotFound ("Client \"" ++ clientName ++ "\" not found"))
    ∧ (∀ c, findClientByName s.clients clientName = some c →
      alistLookup c.projects projectNumber = none →
      resolve s clientName projectNumber =
        ResolveResult.projectNotFound
          ("Project \"" ++ projectNumber ++ "\" not found for " ++ c.name))
    ∧ (∀ c p, findClientByName s.clients clientName = some c →
      alistLookup c.projects projectNumber = some p →
      s.active.contains p.filename = false →
      resolve s clientName projectNumber = ResolveResult.fileMissing "Model file not found")
    ∧ (∀ c p, findClientByName s.clients clientName = some c →
      alistLookup c.projects projectNumber = some p →
      s.active.contains p.filename = true →
      resolve s clientName projectNumber =
        ResolveResult.ok ("/uploads/" ++ p.filename) c.name projectNumber p.description) := by
  refine ⟨?_, ?_, ?_, ?_, ?_, ?_⟩
  · intro other hother
    unfold findClientByName
    rw [hother]
  · intro hall
    unfold findClientByName
    rw [Option.map_eq_none']
    rw [List.find?_eq_none]
    intro x hx
    simp only [beq_iff_eq]
    exact hall x hx
  · intro hnone
    unfold resolve
    simp only [hnone]
  · intro c hfind hproj
    unfold resolve
    simp only [hfind, hproj]
  · intro c p hfind hproj hcont
    have hcont' : ¬ p.filename ∈ s.active := by simpa using hcont
    unfold resolve
    simp only [hfind, hproj]
    simp [hcont']
  · intro c p hfind hproj hcont
    have hcont' : p.filename ∈ s.active := by simpa using hcont
    unfold resolve
    simp only [hfind, hproj]
    simp [hcont']

/-- C7 (witness): an all-caps query resolves the seeded client and
project to its model path. -/
theorem c7_witness :
    resolve s0 "HIGHWAY PROJECTS INC." "highway001" =
      ResolveResult.ok ("/uploads/" ++ hwProject.filename) hwClient.name "highway001"
        hwProject.description := by
  exact (c7_resolve_spec s0 "HIGHWAY PROJECTS INC." "highway001").2.2.2.2.2 hwClient hwProject
    (by decide) (by decide) (by decide)

/-- C9: an upload request whose file passes the validator but whose
clientId or projectId is missing answers 400 with `Client ID and
Project ID are required` and leaves the registry unchanged — yet the
file was already written to the active area by the storage middleware
before the identifier check ran, so the rejected upload leaves an
orphaned stored file. -/
theorem c9_upload_missing_ids (s : ServerState) (now : Nat)
    (mimetype orig clientId projectId d t : String)
    (hv : fileFilter mimetype orig = Except.ok ())
    (hid : clientId = "" ∨ projectId = "") :
    uploadRequest s (some (mimetype, orig)) now clientId projectId d t =
      ({ s with active := s.active ++ [storedFilename now orig] }, UploadOutcome.missingIds)
    ∧ (uploadRequest s (some (mimetype, orig)) now clientId projectId d t).1.clients = s.clients
    ∧ (uploadRequest s (some (mimetype, orig)) now clientId projectId d t).1.active =
        s.active ++ [storedFilename now orig]
    ∧ uploadStatus (uploadRequest s (some (mimetype, orig)) now clientId projectId d t).2 = 400
    ∧ uploadError (uploadRequest s (some (mimetype, orig)) now clientId projectId d t).2 =
        some "Client ID and Project ID are required" := by
  have hcond : (decide (clientId = "") || decide (projectId = "")) = true := by
    rcases hid with h | h <;> simp [h]
  have hmain : uploadRequest s (some (mimetype, orig)) now clientId projectId d t =
      ({ s with active := s.active ++ [storedFilename now orig] },
       UploadOutcome.missingIds) := by
    unfold uploadRequest
    simp only [hv, hcond, if_true]
  rw [hmain]
  exact ⟨rfl, rfl, rfl, rfl, rfl⟩

/-- C9 (witness): a valid `.glb` upload with an empty clientId is
refused but its file is stored anyway. -/
theorem c9_witness :
    uploadRequest emptyState (some ("model/gltf-binary", "a b.glb")) 5 "" "p1" "" "d" =
      ({ emptyState with active := emptyState.active ++ [storedFilename 5 "a b.glb"] },
       UploadOutcome.missingIds) := by
  exact (c9_upload_missing_ids emptyState 5 "model/gltf-binary" "a b.glb" "" "p1" "" "d"
    rfl (Or.inl rfl)).1

end ArchViewer
